import Mathlib

/-!
Verification of the tanukiup development-time process supervisor
(`tanukiup/tanukiup.go`) and the tanukirpc server startup path
(`server.go`), as a shallow embedding in Lean 4.

Go strings are modelled as Lean `String`, byte-level details aside;
Go slices as `List`; the `map[string]*generatorInfo` registry as an
association list with overwrite-on-insert; subprocess and channel
effects as explicit event traces and step functions.
-/

namespace Tanukiup

/-! ### Error classification in the supervisor goroutine (`Run`)

The goroutine body in `Run` classifies an error `err` returned by
`runGenerator` / `startCmd` with the guard

  `var exitError *exec.ExitError`
  `!errors.Is(err, context.Canceled) && !errors.As(err, &exitError) && exitError.ExitCode() != -1`

and sends `err` on `errChan` when the guard is true.  We abstract a Go
error value by the two observations the guard makes of it. -/

/-- Abstraction of the Go `error` value reaching the classification guard:
`isCanceled` is the result of `errors.Is(err, context.Canceled)`;
`exitError` is `some c` when `errors.As(err, &exitError)` succeeds and the
extracted `*exec.ExitError` has `ExitCode() = c`, and `none` when
`errors.As` fails (leaving the local variable `exitError` nil). -/
structure GoError where
  isCanceled : Bool
  exitError : Option Int
deriving DecidableEq, Repr

/-- Outcome of running the guard and the conditional send on `errChan`. -/
inductive ClassifyResult where
  /-- the guard evaluated to true and `errChan <- err` executes -/
  | sendErr : ClassifyResult
  /-- the guard evaluated to false and the error is dropped -/
  | swallow : ClassifyResult
  /-- evaluating the guard dereferenced a nil `*exec.ExitError` (runtime panic) -/
  | nilDereference : ClassifyResult
deriving DecidableEq, Repr

/-- `exitError.ExitCode()` where `exitError : *exec.ExitError`.  `ExitCode` is
promoted from the embedded `*os.ProcessState`; calling it on a nil
`*exec.ExitError` reads the embedded field from a nil pointer and panics,
modelled as `Except.error ()`. -/
def goExitCode : Option Int → Except Unit Int
  | none => .error ()
  | some c => .ok c

/-- The guard expression, with Go's left-to-right short-circuit `&&`:
`!errors.Is(err, context.Canceled) && !errors.As(err, &exitError) && exitError.ExitCode() != -1`.
When `errors.As` fails, the third conjunct still evaluates, on the nil
`exitError`. -/
def classifyGuard (e : GoError) : Except Unit Bool :=
  if e.isCanceled then .ok false
  else if e.exitError.isSome then .ok false
  else (goExitCode e.exitError).map (fun c => decide (c ≠ -1))

/-- The conditional send: `if <guard> { ...; errChan <- err }`. -/
def supervisorSend (e : GoError) : ClassifyResult :=
  match classifyGuard e with
  | .error () => .nilDereference
  | .ok true => .sendErr
  | .ok false => .swallow

/-! ### Supervisor state machine (`Run`): the `skipStart` flag

The supervisor loop keeps a `skipStart` flag.  Each iteration spawns a
generation goroutine iff `!skipStart`, then blocks on a three-way select:
`ctx.Done()` (cancel, return), `restartChan` (cancel, `skipStart = false`),
`errChan` (cancel, `skipStart = true`). -/

/-- The three events the supervisor's select can receive. -/
inductive SuperSignal where
  | ctxDone : SuperSignal
  | restart : SuperSignal
  | errSig : SuperSignal
deriving DecidableEq, Repr

/-- Update of `skipStart` by one received signal.  `ctxDone` makes the loop
return, so the (unread) flag is carried unchanged. -/
def nextSkipStart (skip : Bool) : SuperSignal → Bool
  | .ctxDone => skip
  | .restart => false
  | .errSig => true

/-- An iteration launches a build/exec goroutine iff `!skipStart`
(`if !skipStart { go func() {...} }`). -/
def startsGeneration (skip : Bool) : Bool := !skip

/-- The `skipStart` value at the top of each loop iteration, given the initial
value and the list of signals received so far: `(skipStates init sigs).get? i`
is the flag at the start of iteration `i`. -/
def skipStates (init : Bool) : List SuperSignal → List Bool
  | [] => [init]
  | sig :: rest => init :: skipStates (nextSkipStart init sig) rest

/-! ### Command template substitution (`startCmd`)

`startCmd` copies the configured command slice, replacing every token equal
to `buildOutPathPlaceholder` by the generation's output path. -/

/-- The placeholder token `buildOutPathPlaceholder = "{outpath}"`. -/
def buildOutPathPlaceholder : String := "{outpath}"

/-- The substitution loop in `startCmd`, run on both `args.buildCommand`
and `args.execCommand`:
`for _, bc := range cmd { if bc == buildOutPathPlaceholder { out = append(out, outpath) } else { out = append(out, bc) } }`. -/
def substOutpath (outpath : String) : List String → List String
  | [] => []
  | tok :: rest =>
    (if tok = buildOutPathPlaceholder then outpath else tok) :: substOutpath outpath rest

/-! ### The build/exec pipeline (`startCmd`) as an event trace

`startCmd` materializes `outpath = filepath.Join(args.tempDir, fname)` for a
random `fname`, substitutes it into the build command, runs the build
(returning on failure), registers `defer os.Remove(outpath)`, substitutes
into the exec command, optionally launches the proxy when `args.addr` is
set, and runs the exec command. -/

/-- The fields of `optionArgs` that `startCmd` reads. -/
structure OptionArgs where
  buildCommand : List String
  execCommand : List String
  addr : String
  tempDir : String
  baseDir : String
deriving DecidableEq, Repr

/-- `filepath.Join(dir, name)` for the already-clean paths used here. -/
def goJoin (dir name : String) : String :=
  if dir = "" then name else dir ++ "/" ++ name

/-- `udsPath(fname, tempDir) = filepath.Join(tempDir, filepath.Base(fname)+".sock")`;
`fname` is a bare decimal name, so `filepath.Base(fname) = fname`. -/
def udsPath (fname tempDir : String) : String :=
  goJoin tempDir (fname ++ ".sock")

/-- Externally visible actions of one `startCmd` call. -/
inductive CmdEvent where
  /-- `bcmd.Run()` on the substituted build command, in `args.baseDir` -/
  | runBuild (cmd : List String) : CmdEvent
  /-- `waitAndListenProxyServer(ctx, args.addr, args.baseDir, up, args.catchAllTarget)` -/
  | launchProxy (addr socketPath : String) : CmdEvent
  /-- `ecmd.Run()` on the substituted exec command, in `args.baseDir` -/
  | runExec (cmd : List String) : CmdEvent
  /-- `os.Remove(path)` (the deferred cleanup) -/
  | removeFile (path : String) : CmdEvent
deriving DecidableEq, Repr

/-- Trace semantics of `startCmd`: given the generation's random name and the
outcomes of the two subprocess runs, the ordered action trace and whether the
call returns nil.  `defer os.Remove(outpath)` is registered only after
`bcmd.Run()` succeeds — on build failure the function returns before the
`defer` statement executes — and a registered `defer` fires when the
function returns, i.e. after `ecmd.Run()` in both the error and nil cases. -/
def startCmdRun (args : OptionArgs) (fname : String) (buildOk execOk : Bool) :
    List CmdEvent × Bool :=
  let outpath := goJoin args.tempDir fname
  let buildCommand := substOutpath outpath args.buildCommand
  if !buildOk then ([CmdEvent.runBuild buildCommand], false)
  else
    let execCommand := substOutpath outpath args.execCommand
    let proxyEvents :=
      if args.addr ≠ "" then [CmdEvent.launchProxy args.addr (udsPath fname args.tempDir)]
      else []
    ([CmdEvent.runBuild buildCommand] ++ proxyEvents ++
      [CmdEvent.runExec execCommand, CmdEvent.removeFile outpath], execOk)

/-! ### Directive scanning and the generator registry -/

/-- `generatorInfo`: an argument vector plus a working directory. -/
structure GeneratorInfo where
  command : List String
  dir : String
deriving DecidableEq, Repr

/-- `(*generatorInfo).String() = fmt.Sprintf("command: %v, dir: %s", ...)`;
Go renders a `[]string` as its space-separated elements in brackets. -/
def giString (g : GeneratorInfo) : String :=
  "command: [" ++ String.intercalate " " g.command ++ "], dir: " ++ g.dir

/-- The allow-list `whitelistGenerate`. -/
def whitelistGenerate : List String :=
  ["github.com/mackee/tanukirpc/cmd/gentypescript"]

/-- The registry `enabledGenerator : map[string]*generatorInfo` as an
association list; Go map assignment overwrites the entry with an equal key
and otherwise adds one. -/
def registryInsert : List (String × GeneratorInfo) → String → GeneratorInfo →
    List (String × GeneratorInfo)
  | [], k, g => [(k, g)]
  | p :: rest, k, g =>
    if p.1 = k then (k, g) :: rest else p :: registryInsert rest k g

/-- `enableGenerator`: `enabledGenerator[generator.String()] = generator`. -/
def enableGenerator (reg : List (String × GeneratorInfo)) (g : GeneratorInfo) :
    List (String × GeneratorInfo) :=
  registryInsert reg (giString g) g

/-- Worker for `strings.Fields`: accumulate the current field (reversed) and
split on whitespace runs. -/
def fieldsAux : List Char → List Char → List (List Char)
  | [], cur => if cur.isEmpty then [] else [cur.reverse]
  | c :: cs, cur =>
    if c.isWhitespace then
      if cur.isEmpty then fieldsAux cs [] else cur.reverse :: fieldsAux cs []
    else fieldsAux cs (c :: cur)

/-- `strings.Fields(s)`: the whitespace-separated fields of `s`. -/
def goFields (s : String) : List String :=
  (fieldsAux s.data []).map String.mk

/-- `strings.HasPrefix(s, pre)`. -/
def goHasPrefix (s pre : String) : Bool :=
  pre.data.isPrefixOf s.data

/-- One iteration of the scanner loop in `searchGenerate`, processing the line
`line` of the file `filename`, where `dir = filepath.Dir(filename)`:
register `generatorInfo{command: fields[1:], dir}` when the line starts with
`"//go:generate go run "`, has at least 4 fields, and `fields[3]` is on the
allow-list.  (The `ctx.Done()` poll is modelled with a context that is never
done.) -/
def searchGenerateLine (dir : String) (reg : List (String × GeneratorInfo))
    (line : String) : List (String × GeneratorInfo) :=
  if goHasPrefix line "//go:generate go run " then
    let fields := goFields line
    if fields.length < 4 then reg
    else if whitelistGenerate.contains (fields.getD 3 "") then
      enableGenerator reg ⟨fields.drop 1, dir⟩
    else reg
  else reg

/-- `searchGenerate` over the lines of the scanned file. -/
def searchGenerate (dir : String) (lines : List String)
    (reg : List (String × GeneratorInfo)) : List (String × GeneratorInfo) :=
  lines.foldl (searchGenerateLine dir) reg

/-! ### The reverse proxy (`proxyServer`)

`proxyServer` registers, for each discovered `routePath`, a chi route with
`router.Method(rp.Method, rp.Path, appProxy)` — the app proxy is a reverse
proxy over a transport dialing the generation's Unix socket — and, when
`catchAllTarget` is non-empty, sets only the router's NotFound handler to a
reverse proxy for that URL.  chi resolves a request by path first: a path
registered under some method but requested with another is served by the
MethodNotAllowedHandler (the default 405 response, which `proxyServer`
never rewires), and only a path registered under no method at all reaches
the NotFound handler. -/

/-- `routePath`: one `(method, path)` pair from the route discovery output. -/
structure RoutePath where
  method : String
  path : String
deriving DecidableEq, Repr

/-- Where the proxy server sends an incoming request. -/
inductive ProxyTarget where
  /-- the reverse proxy whose transport dials the Unix socket at `socketPath` -/
  | appSocket (socketPath : String) : ProxyTarget
  /-- the reverse proxy to the configured catch-all URL -/
  | catchAll (target : String) : ProxyTarget
  /-- chi's default MethodNotAllowedHandler (405) -/
  | methodNotAllowed : ProxyTarget
  /-- chi's default not-found response -/
  | notFound : ProxyTarget
deriving DecidableEq, Repr

/-- Dispatch of the router built by `proxyServer` on a request.  Pattern
parameters of chi are not modelled: routes are matched by exact method and
path, which coincides with chi's behavior for the parameter-free patterns
considered here.  The branches mirror chi's resolution order: a method+path
match goes to the app proxy; a path registered only under other methods gets
the default method-not-allowed response (never the catch-all); an
unregistered path reaches the NotFound handler — the catch-all proxy when
configured, chi's default not-found response otherwise. -/
def proxyDispatch (routePaths : List RoutePath) (socketPath : String)
    (catchAllTarget : String) (method path : String) : ProxyTarget :=
  if routePaths.any (fun rp => rp.method = method ∧ rp.path = path) then
    ProxyTarget.appSocket socketPath
  else if routePaths.any (fun rp => rp.path = path) then
    ProxyTarget.methodNotAllowed
  else if catchAllTarget ≠ "" then ProxyTarget.catchAll catchAllTarget
  else ProxyTarget.notFound

/-! ### The readiness gate (`tryLaunchProxyServer`)

After adding the socket's parent directory to a fresh watcher, the `OUTER`
loop consumes watcher messages until it either returns (context done or
channel closed — the server never starts) or breaks out and serves: the
break condition is `event.Name == udsPath`, with no constraint on the
event's operation kind. -/

/-- fsnotify operation kinds. -/
inductive FsOp where
  | create : FsOp
  | write : FsOp
  | remove : FsOp
  | rename : FsOp
  | chmod : FsOp
deriving DecidableEq, Repr

/-- One message consumed by the `OUTER` select. -/
inductive WatchMsg where
  /-- `ctx.Done()` fired -/
  | ctxDone : WatchMsg
  /-- the watcher's event channel is closed -/
  | closed : WatchMsg
  /-- a filesystem event with its operation and name -/
  | ev (op : FsOp) (name : String) : WatchMsg
deriving DecidableEq, Repr

/-- The `OUTER` loop of `tryLaunchProxyServer`: returns `true` iff it breaks
out of the loop and `server.ListenAndServe()` is reached.  An empty message
list means the select is still blocked, so serving has not started. -/
def outerLoop (socketPath : String) : List WatchMsg → Bool
  | [] => false
  | WatchMsg.ctxDone :: _ => false
  | WatchMsg.closed :: _ => false
  | WatchMsg.ev _ name :: rest =>
    if name = socketPath then true else outerLoop socketPath rest

/-- Whether a watcher message is an event whose name is the socket path. -/
def isEvNamed (socketPath : String) : WatchMsg → Bool
  | WatchMsg.ev _ name => name = socketPath
  | _ => false

/-! ### Interleaving model of the supervisor and its generation goroutines

The supervisor loop spawns each generation's build/exec pipeline with
`go func(){...}` and never joins it: `cancel()` only signals the pipeline's
sub-context.  The model below makes the spawn (loop top) and the select
receive separate atomic steps, and gives each spawned pipeline an explicit
exit step that the scheduler may delay arbitrarily — as in Go, where a
cancelled `startCmd` keeps running until its subprocesses die. -/

/-- Scheduler actions: the supervisor reaching its loop top (spawn point),
the supervisor's select receiving a signal, or a spawned pipeline goroutine
finishing. -/
inductive SuperAction where
  | spawn : SuperAction
  | recv (sig : SuperSignal) : SuperAction
  | taskExit (id : Nat) : SuperAction
deriving DecidableEq, Repr

/-- Global state: `live` are spawned pipelines that have not finished,
`cancelled` the generation ids whose sub-context has been cancelled,
`current` the generation spawned by the in-flight iteration (none when
`skipStart` suppressed the spawn), `phase = true` between the spawn point
and the select receive. -/
structure SuperState where
  live : List Nat
  cancelled : List Nat
  current : Option Nat
  nextId : Nat
  skipStart : Bool
  phase : Bool
  halted : Bool
deriving DecidableEq, Repr

/-- The initial state: nothing spawned, `skipStart = false`. -/
def superInit : SuperState :=
  ⟨[], [], none, 0, false, false, false⟩

/-- Effect of `cancel()` on the iteration's `cmdCtx`: the generation spawned
under it (if any) becomes cancelled. -/
def cancelCurrent (s : SuperState) : List Nat :=
  match s.current with
  | some i => i :: s.cancelled
  | none => s.cancelled

/-- One scheduler step.  At the loop top, `if !skipStart` spawns a fresh
pipeline under the iteration's `cmdCtx`.  The select receive first runs
`cancel()` on the iteration's `cmdCtx` — cancelling the current generation —
then updates `skipStart` (or halts on `ctx.Done()`).  A pipeline may exit
at any time while live; nothing in `Run` waits for it. -/
def superStep (s : SuperState) : SuperAction → SuperState
  | SuperAction.spawn =>
    if s.halted || s.phase then s
    else if s.skipStart then { s with phase := true, current := none }
    else
      { s with live := s.nextId :: s.live, current := some s.nextId,
               nextId := s.nextId + 1, phase := true }
  | SuperAction.recv sig =>
    if s.halted || !s.phase then s
    else
      match sig with
      | SuperSignal.ctxDone =>
        { s with cancelled := cancelCurrent s, current := none, phase := false, halted := true }
      | SuperSignal.restart =>
        { s with cancelled := cancelCurrent s, current := none, phase := false, skipStart := false }
      | SuperSignal.errSig =>
        { s with cancelled := cancelCurrent s, current := none, phase := false, skipStart := true }
  | SuperAction.taskExit i =>
    if i ∈ s.live then { s with live := s.live.erase i } else s

/-- The state after a whole schedule of steps. -/
def superRun (acts : List SuperAction) : SuperState :=
  acts.foldl superStep superInit

/-- Invariant of the supervisor model: spawned ids are below `nextId` and
distinct; outside the spawn-to-receive window no generation is current; and
every live generation whose sub-context is not cancelled is the current one. -/
def superInv (s : SuperState) : Prop :=
  (∀ i ∈ s.live, i < s.nextId) ∧ s.live.Nodup ∧
  (s.phase = false → s.current = none) ∧
  (∀ i ∈ s.live, i ∉ s.cancelled → s.current = some i)

end Tanukiup

/-! ### `Router.ListenAndServe` and `tanukiupUnixListener` (`server.go`) -/

namespace Tanukirpc

/-- Result of `tanukiupUnixListener`. -/
inductive UnixListenerResult where
  /-- `TANUKIUP_UDS_PATH` is unset: `errTanukiupUDSNotFound` -/
  | notFoundErr : UnixListenerResult
  /-- `net.Listen("unix", p)` failed: a wrapped bind error -/
  | bindErr : UnixListenerResult
  /-- a listener on the Unix socket at `p` -/
  | listener (p : String) : UnixListenerResult
deriving DecidableEq, Repr

/-- `tanukiupUnixListener`: look up `TANUKIUP_UDS_PATH` (`envUDS` is its
value when set); when set, bind a Unix socket at that path (`bindOk` is
whether `net.Listen("unix", p)` succeeds). -/
def tanukiupUnixListener (envUDS : Option String) (bindOk : Bool) :
    UnixListenerResult :=
  match envUDS with
  | none => UnixListenerResult.notFoundErr
  | some p => if bindOk then UnixListenerResult.listener p else UnixListenerResult.bindErr

/-- How `ListenAndServe` ends up serving. -/
inductive ServeOutcome where
  /-- `server.ListenAndServe()` on the TCP address `addr` -/
  | tcpListen (addr : String) : ServeOutcome
  /-- `server.Serve(uds)` on the Unix socket at `path` -/
  | unixServe (path : String) : ServeOutcome
  /-- `ListenAndServe` returns the wrapped listener error without serving -/
  | returnError : ServeOutcome
deriving DecidableEq, Repr

/-- The serving decision of `Router.ListenAndServe`: unless the
`WithDisableTanukiupProxy` option set `disableTanukiupProxy`, consult
`tanukiupUnixListener`; `errTanukiupUDSNotFound` is tolerated (leaving the
`uds` listener nil), any other error is returned, and a nil `uds` means the
plain TCP path is taken. -/
def listenAndServeOutcome (disableTanukiupProxy : Bool) (envUDS : Option String)
    (bindOk : Bool) (addr : String) : ServeOutcome :=
  if disableTanukiupProxy then ServeOutcome.tcpListen addr
  else
    match tanukiupUnixListener envUDS bindOk with
    | UnixListenerResult.notFoundErr => ServeOutcome.tcpListen addr
    | UnixListenerResult.bindErr => ServeOutcome.returnError
    | UnixListenerResult.listener p => ServeOutcome.unixServe p

end Tanukirpc

namespace Tanukiup

/-- skipStates always has one more entry than the signal list. -/
theorem length_skipStates (init : Bool) (sigs : List SuperSignal) :
    (skipStates init sigs).length = sigs.length + 1 := by
  induction sigs generalizing init with
  | nil => rfl
  | cons sig rest ih => simp [skipStates, ih]

/-- Stepping relation between consecutive entries of skipStates. -/
theorem skipStates_get?_succ (sigs : List SuperSignal) (init : Bool) (i : Nat) :
    (skipStates init sigs).get? (i + 1) =
      (sigs.get? i).bind (fun sig =>
        ((skipStates init sigs).get? i).map (fun s => nextSkipStart s sig)) := by
  induction sigs generalizing init i with
  | nil => cases i <;> rfl
  | cons sig rest ih =>
    cases i with
    | zero =>
      simp only [skipStates, List.get?]
      cases rest with
      | nil => rfl
      | cons s r => rfl
    | succ j =>
      simp only [skipStates, List.get?]
      exact ih (nextSkipStart init sig) j

/-- C1: the claim says a non-zero, non-cancellation exec/generator failure is
sent on `errChan`.  In the code as written the guard's second conjunct
`!errors.As(err, &exitError)` is false exactly when the error wraps an
`*exec.ExitError`, so a non-zero exit (the claim's trigger) is swallowed;
when the error wraps no `*exec.ExitError` the third conjunct dereferences a
nil pointer.  Hence no error value is ever sent on `errChan`; in particular a
non-cancelled exit with code 1 is swallowed. -/
theorem c1_errchan_never_receives :
    (∀ e : GoError, supervisorSend e ≠ ClassifyResult.sendErr) ∧
    supervisorSend ⟨false, some 1⟩ = ClassifyResult.swallow := by
  refine ⟨fun e => ?_, rfl⟩
  rcases e with ⟨c, x⟩
  cases c <;> cases x <;> simp [supervisorSend, classifyGuard, goExitCode, Except.map]

/-- C9: the claim says the classification guard never calls `ExitCode()` on a
nil `*exec.ExitError`.  In the code, when the error is neither
`context.Canceled` nor wraps an `*exec.ExitError`, the first two conjuncts
are true, so `exitError.ExitCode()` is evaluated with `exitError` still nil,
a nil-pointer dereference. -/
theorem c9_guard_nil_dereference :
    classifyGuard ⟨false, none⟩ = Except.error () ∧
    supervisorSend ⟨false, none⟩ = ClassifyResult.nilDereference :=
  ⟨rfl, rfl⟩

/-- C2: an iteration that ends by receiving `errSig` sets `skipStart`, so the
next iteration does not launch a generation; and whenever an iteration with
`skipStart` set is followed by one that launches, the signal received in
between was `restart`. -/
theorem c2_error_backoff (init : Bool) (sigs : List SuperSignal) (i : Nat) :
    (sigs.get? i = some SuperSignal.errSig →
      ((skipStates init sigs).get? (i + 1)).map startsGeneration = some false) ∧
    (∀ s s' : Bool, (skipStates init sigs).get? i = some s →
      (skipStates init sigs).get? (i + 1) = some s' →
      startsGeneration s = false → startsGeneration s' = true →
      sigs.get? i = some SuperSignal.restart) := by
  constructor
  · intro h
    have hi : i < sigs.length := by
      rcases List.get?_eq_some.mp h with ⟨hlt, _⟩
      exact hlt
    have hi' : i < (skipStates init sigs).length := by
      rw [length_skipStates]
      omega
    have hstate : (skipStates init sigs).get? i =
        some ((skipStates init sigs).get ⟨i, hi'⟩) := List.get?_eq_get hi'
    rw [skipStates_get?_succ, h, hstate]
    rfl
  · intro s s' hs hs' hstart hstart'
    have hstep := skipStates_get?_succ sigs init i
    rw [hs', hs] at hstep
    cases hsig : sigs.get? i with
    | none =>
      rw [hsig] at hstep
      exact Option.noConfusion hstep
    | some sig =>
      rw [hsig] at hstep
      have hval : s' = nextSkipStart s sig := Option.some.inj hstep
      have hs_true : s = true := by
        cases s
        · simp [startsGeneration] at hstart
        · rfl
      have hs'_false : s' = false := by
        cases s'
        · rfl
        · simp [startsGeneration] at hstart'
      subst hs_true hs'_false
      cases sig with
      | ctxDone => simp [nextSkipStart] at hval
      | restart => rfl
      | errSig => simp [nextSkipStart] at hval

/-- Witness for c2_error_backoff: after receiving `errSig` at iteration 0 the
flag at iteration 1 suppresses the launch; and a concrete suppressed-then-
launching pair forces the intervening signal to be `restart`. -/
theorem c2_error_backoff_witness :
    ((skipStates false [SuperSignal.errSig]).get? 1).map startsGeneration = some false ∧
    [SuperSignal.restart].get? 0 = some SuperSignal.restart :=
  ⟨(c2_error_backoff false [SuperSignal.errSig] 0).1 rfl,
   (c2_error_backoff true [SuperSignal.restart] 0).2 true false rfl rfl rfl rfl⟩

/-- C5: the substitution in `startCmd` preserves the number and order of
argument tokens, replaces a token iff it is exactly `"{outpath}"`, and leaves
a token that merely contains the placeholder as a substring unchanged. -/
theorem c5_placeholder_substitution (outpath : String) (cmd : List String) :
    (substOutpath outpath cmd).length = cmd.length ∧
    (∀ i : Nat, (substOutpath outpath cmd).get? i =
      (cmd.get? i).map (fun tok =>
        if tok = buildOutPathPlaceholder then outpath else tok)) ∧
    substOutpath "/tmp/out" ["go", "run", "pre{outpath}post", "{outpath}"] =
      ["go", "run", "pre{outpath}post", "/tmp/out"] := by
  refine ⟨?_, ?_, by decide⟩
  · induction cmd with
    | nil => rfl
    | cons tok rest ih => simp [substOutpath, ih]
  · intro i
    induction cmd generalizing i with
    | nil => cases i <;> rfl
    | cons tok rest ih =>
      cases i with
      | zero => rfl
      | succ j => exact ih j

/-- C3 counterexample: with the default commands, a failing build and a
run that would otherwise succeed, the `startCmd` trace is just the build
attempt: it contains no removal of the output path `/tmp/42`.  The claim
that removal is scheduled "regardless of the build's outcome" and happens
"on build failure" is false — `defer os.Remove(outpath)` sits after the
build's error return. -/
theorem c3_counterexample :
    (startCmdRun ⟨["go", "build", "-o", "{outpath}", "./"], ["{outpath}"], "", "/tmp", "."⟩
        "42" false true).1 =
      [CmdEvent.runBuild ["go", "build", "-o", "/tmp/42", "./"]] ∧
    CmdEvent.removeFile "/tmp/42" ∉
      (startCmdRun ⟨["go", "build", "-o", "{outpath}", "./"], ["{outpath}"], "", "/tmp", "."⟩
        "42" false true).1 := by
  constructor
  · rfl
  · intro h
    simp [startCmdRun] at h

/-- C3 amended: removal of the output path is scheduled only after the build
command succeeds.  When the build fails, `startCmd` returns without removing
anything; when the build succeeds, the removal is the last action of the
trace — it happens when `startCmd` returns, immediately after the exec step,
on exec failure and exec success alike. -/
theorem c3_removal_after_successful_build (args : OptionArgs) (fname : String)
    (execOk : Bool) :
    (∀ p : String, CmdEvent.removeFile p ∉ (startCmdRun args fname false execOk).1) ∧
    (startCmdRun args fname true execOk).1.getLast? =
      some (CmdEvent.removeFile (goJoin args.tempDir fname)) ∧
    (startCmdRun args fname true execOk).1.get?
        ((startCmdRun args fname true execOk).1.length - 2) =
      some (CmdEvent.runExec (substOutpath (goJoin args.tempDir fname) args.execCommand)) := by
  refine ⟨fun p h => ?_, ?_, ?_⟩
  · simp [startCmdRun] at h
  · by_cases ha : args.addr = "" <;> simp [startCmdRun, ha]
  · by_cases ha : args.addr = "" <;> simp [startCmdRun, ha]

/-- C4 counterexample: the claim's directive line `//go:generate run X`, with
`X` the sole allow-listed command, registers nothing — the scanner requires
the prefix `"//go:generate go run "`, which this line lacks (and its field
count is below four) — so it does not register exactly one command. -/
theorem c4_counterexample :
    searchGenerate "."
      ["//go:generate run github.com/mackee/tanukirpc/cmd/gentypescript"] [] = [] := by
  rfl

/-- Inserting the same key/value twice into the registry is the same as
inserting it once. -/
theorem registryInsert_idem (reg : List (String × GeneratorInfo)) (k : String)
    (g : GeneratorInfo) :
    registryInsert (registryInsert reg k g) k g = registryInsert reg k g := by
  induction reg with
  | nil => simp [registryInsert]
  | cons p rest ih =>
    by_cases h : p.1 = k
    · simp [registryInsert, h]
    · simp [registryInsert, h, ih]

/-- C4 amended: a line `//go:generate go run X` with `X` on the allow-list
registers exactly one generator command (from an empty registry), and
scanning the same line a second time leaves any registry unchanged —
registration is keyed on the command's argument-vector+directory identity
string and is idempotent. -/
theorem c4_register_idempotent (dir : String) (reg : List (String × GeneratorInfo)) :
    (searchGenerate dir
      ["//go:generate go run github.com/mackee/tanukirpc/cmd/gentypescript"] []).length = 1 ∧
    searchGenerate dir
      ["//go:generate go run github.com/mackee/tanukirpc/cmd/gentypescript"]
      (searchGenerate dir
        ["//go:generate go run github.com/mackee/tanukirpc/cmd/gentypescript"] reg) =
    searchGenerate dir
      ["//go:generate go run github.com/mackee/tanukirpc/cmd/gentypescript"] reg := by
  constructor
  · rfl
  · exact registryInsert_idem reg _ _

/-- C6 counterexample: with routes `[("GET","/ping")]` and a catch-all target
configured, a POST to `/ping` matches no discovered route, yet it is served
by chi's default method-not-allowed response and is not forwarded to the
catch-all target (nor given the router's not-found response), contradicting
the claim's unmatched-request clause. -/
theorem c6_counterexample :
    proxyDispatch [⟨"GET", "/ping"⟩] "/tmp/42.sock" "http://localhost:3000" "POST" "/ping" =
      ProxyTarget.methodNotAllowed ∧
    proxyDispatch [⟨"GET", "/ping"⟩] "/tmp/42.sock" "http://localhost:3000" "POST" "/ping" ≠
      ProxyTarget.catchAll "http://localhost:3000" ∧
    proxyDispatch [⟨"GET", "/ping"⟩] "/tmp/42.sock" "" "POST" "/ping" ≠
      ProxyTarget.notFound := by
  decide

/-- C6 amended: a request whose method and path match a discovered route goes
to the reverse proxy over the generation's Unix socket; a request whose path
is discovered only under a different method gets chi's method-not-allowed
response, not the catch-all; a request whose path matches no discovered
route goes to the catch-all target when one is configured and to the
router's not-found response otherwise — shown in general and on the spec's
`GET /ping` example. -/
theorem c6_proxy_routing_amended (routePaths : List RoutePath)
    (socketPath target method path : String) :
    ((∃ rp ∈ routePaths, rp.method = method ∧ rp.path = path) →
      proxyDispatch routePaths socketPath target method path =
        ProxyTarget.appSocket socketPath) ∧
    ((∀ rp ∈ routePaths, rp.path ≠ path) → target ≠ "" →
      proxyDispatch routePaths socketPath target method path =
        ProxyTarget.catchAll target) ∧
    ((∀ rp ∈ routePaths, rp.path ≠ path) →
      proxyDispatch routePaths socketPath "" method path = ProxyTarget.notFound) ∧
    ((∀ rp ∈ routePaths, ¬(rp.method = method ∧ rp.path = path)) →
      (∃ rp ∈ routePaths, rp.path = path) →
      proxyDispatch routePaths socketPath target method path =
        ProxyTarget.methodNotAllowed) ∧
    proxyDispatch [⟨"GET", "/ping"⟩] "/tmp/42.sock" "http://localhost:3000" "GET" "/ping" =
      ProxyTarget.appSocket "/tmp/42.sock" ∧
    proxyDispatch [⟨"GET", "/ping"⟩] "/tmp/42.sock" "http://localhost:3000" "GET" "/other" =
      ProxyTarget.catchAll "http://localhost:3000" ∧
    proxyDispatch [⟨"GET", "/ping"⟩] "/tmp/42.sock" "" "GET" "/other" =
      ProxyTarget.notFound := by
  refine ⟨?_, ?_, ?_, ?_, by decide, by decide, by decide⟩
  · intro h
    have hany : routePaths.any
        (fun rp => decide (rp.method = method ∧ rp.path = path)) = true := by
      rw [List.any_eq_true]
      obtain ⟨rp, hmem, hcond⟩ := h
      exact ⟨rp, hmem, decide_eq_true hcond⟩
    simp only [proxyDispatch]
    rw [hany]
    simp
  · intro h htarget
    have hfull : routePaths.any
        (fun rp => decide (rp.method = method ∧ rp.path = path)) = false := by
      cases hx : routePaths.any (fun rp => decide (rp.method = method ∧ rp.path = path)) with
      | false => rfl
      | true =>
        exfalso
        obtain ⟨rp, hmem, hcond⟩ := List.any_eq_true.mp hx
        exact h rp hmem (of_decide_eq_true hcond).2
    have hpath : routePaths.any (fun rp => decide (rp.path = path)) = false := by
      cases hx : routePaths.any (fun rp => decide (rp.path = path)) with
      | false => rfl
      | true =>
        exfalso
        obtain ⟨rp, hmem, hcond⟩ := List.any_eq_true.mp hx
        exact h rp hmem (of_decide_eq_true hcond)
    simp only [proxyDispatch]
    rw [hfull, hpath]
    simp [htarget]
  · intro h
    have hfull : routePaths.any
        (fun rp => decide (rp.method = method ∧ rp.path = path)) = false := by
      cases hx : routePaths.any (fun rp => decide (rp.method = method ∧ rp.path = path)) with
      | false => rfl
      | true =>
        exfalso
        obtain ⟨rp, hmem, hcond⟩ := List.any_eq_true.mp hx
        exact h rp hmem (of_decide_eq_true hcond).2
    have hpath : routePaths.any (fun rp => decide (rp.path = path)) = false := by
      cases hx : routePaths.any (fun rp => decide (rp.path = path)) with
      | false => rfl
      | true =>
        exfalso
        obtain ⟨rp, hmem, hcond⟩ := List.any_eq_true.mp hx
        exact h rp hmem (of_decide_eq_true hcond)
    simp only [proxyDispatch]
    rw [hfull, hpath]
    simp
  · intro h1 h2
    have hfull : routePaths.any
        (fun rp => decide (rp.method = method ∧ rp.path = path)) = false := by
      cases hx : routePaths.any (fun rp => decide (rp.method = method ∧ rp.path = path)) with
      | false => rfl
      | true =>
        exfalso
        obtain ⟨rp, hmem, hcond⟩ := List.any_eq_true.mp hx
        exact h1 rp hmem (of_decide_eq_true hcond)
    have hpath : routePaths.any (fun rp => decide (rp.path = path)) = true := by
      rw [List.any_eq_true]
      obtain ⟨rp, hmem, hcond⟩ := h2
      exact ⟨rp, hmem, decide_eq_true hcond⟩
    simp only [proxyDispatch]
    rw [hfull, hpath]
    simp

/-- Witness for c6_proxy_routing_amended, exercising the method-not-allowed
and catch-all clauses at a concrete route table. -/
theorem c6_proxy_routing_amended_witness :
    proxyDispatch [⟨"GET", "/ping"⟩] "/tmp/s.sock" "http://fallback" "POST" "/ping" =
      ProxyTarget.methodNotAllowed ∧
    proxyDispatch [⟨"GET", "/ping"⟩] "/tmp/s.sock" "http://fallback" "POST" "/other" =
      ProxyTarget.catchAll "http://fallback" :=
  ⟨(c6_proxy_routing_amended [⟨"GET", "/ping"⟩] "/tmp/s.sock" "http://fallback"
        "POST" "/ping").2.2.2.1 (by decide) (by decide),
   (c6_proxy_routing_amended [⟨"GET", "/ping"⟩] "/tmp/s.sock" "http://fallback"
        "POST" "/other").2.1 (by decide) (by decide)⟩

/-- C7 counterexample: the `OUTER` loop of `tryLaunchProxyServer` tests only
`event.Name == udsPath` and never the event's operation; a chmod event for
the socket path makes it break out and serve although no creation event was
observed, contradicting the claim. -/
theorem c7_counterexample :
    outerLoop "/tmp/42.sock" [WatchMsg.ev FsOp.chmod "/tmp/42.sock"] = true ∧
    WatchMsg.ev FsOp.create "/tmp/42.sock" ∉ [WatchMsg.ev FsOp.chmod "/tmp/42.sock"] := by
  decide

/-- Helper: if the loop breaks out and serves, some consumed message was a
filesystem event named exactly the socket path. -/
theorem outerLoop_imp_any (socketPath : String) (msgs : List WatchMsg)
    (h : outerLoop socketPath msgs = true) :
    msgs.any (isEvNamed socketPath) = true := by
  induction msgs with
  | nil => exact absurd h (by simp [outerLoop])
  | cons m rest ih =>
    cases m with
    | ctxDone => exact absurd h (by simp [outerLoop])
    | closed => exact absurd h (by simp [outerLoop])
    | ev op name =>
      by_cases hname : name = socketPath
      · simp [isEvNamed, hname]
      · rw [outerLoop, if_neg hname] at h
        simp [isEvNamed, hname, ih h]

/-- C7 amended: the proxy server begins serving only after a filesystem event
— of any operation kind — whose name is exactly the generation's socket path
has been observed; while no such event has arrived, serving has not started. -/
theorem c7_readiness_gate (socketPath : String) (msgs : List WatchMsg) :
    (outerLoop socketPath msgs = true → msgs.any (isEvNamed socketPath) = true) ∧
    (∀ n : Nat, (msgs.take n).any (isEvNamed socketPath) = false →
      outerLoop socketPath (msgs.take n) = false) := by
  refine ⟨outerLoop_imp_any socketPath msgs, fun n hn => ?_⟩
  cases hserve : outerLoop socketPath (msgs.take n) with
  | false => rfl
  | true => rw [outerLoop_imp_any socketPath (msgs.take n) hserve] at hn; cases hn

/-- Witness for c7_readiness_gate on concrete message streams. -/
theorem c7_readiness_gate_witness :
    [WatchMsg.ev FsOp.create "/tmp/s.sock"].any (isEvNamed "/tmp/s.sock") = true ∧
    outerLoop "/tmp/s.sock" ([WatchMsg.ctxDone].take 1) = false :=
  ⟨(c7_readiness_gate "/tmp/s.sock" [WatchMsg.ev FsOp.create "/tmp/s.sock"]).1 rfl,
   (c7_readiness_gate "/tmp/s.sock" [WatchMsg.ctxDone]).2 1 rfl⟩

/-- C8 counterexample: the schedule "spawn generation 0, receive a restart
(cancelling generation 0), spawn generation 1" — with generation 0's
pipeline not yet exited, which `Run` never waits for — reaches a state with
two live build/exec pipelines, so "at most one generation's pipeline is
active at every instant" fails. -/
theorem c8_counterexample :
    (superRun [SuperAction.spawn, SuperAction.recv SuperSignal.restart,
        SuperAction.spawn]).live = [1, 0] ∧
    (superRun [SuperAction.spawn, SuperAction.recv SuperSignal.restart,
        SuperAction.spawn]).cancelled = [0] := by
  decide

/-- The invariant holds initially. -/
theorem superInv_init : superInv superInit := by
  refine ⟨?_, ?_, ?_, ?_⟩ <;> simp [superInit, superInv]

/-- The invariant is preserved by every scheduler step. -/
theorem superInv_step (s : SuperState) (a : SuperAction) (h : superInv s) :
    superInv (superStep s a) := by
  obtain ⟨hA, hB, hC, hD⟩ := h
  cases a with
  | spawn =>
    simp only [superStep]
    split_ifs with h1 h2
    · exact ⟨hA, hB, hC, hD⟩
    · have hphase : s.phase = false := by
        simp only [Bool.or_eq_true, not_or, Bool.not_eq_true] at h1
        exact h1.2
      refine ⟨hA, hB, fun hph => by simp at hph, fun i hi hic => ?_⟩
      exfalso
      have := hD i hi hic
      rw [hC hphase] at this
      cases this
    · have hphase : s.phase = false := by
        simp only [Bool.or_eq_true, not_or, Bool.not_eq_true] at h1
        exact h1.2
      have hcur : s.current = none := hC hphase
      refine ⟨?_, ?_, fun hph => by simp at hph, ?_⟩
      · intro i hi
        simp only [List.mem_cons] at hi
        rcases hi with rfl | hi
        · show s.nextId < s.nextId + 1
          omega
        · have := hA i hi
          show i < s.nextId + 1
          omega
      · refine List.nodup_cons.mpr ⟨fun hmem => ?_, hB⟩
        have := hA _ hmem
        omega
      · intro i hi hic
        simp only [List.mem_cons] at hi
        rcases hi with rfl | hi
        · rfl
        · exfalso
          have := hD i hi hic
          rw [hcur] at this
          cases this
  | recv sig =>
    simp only [superStep]
    split_ifs with h1
    · exact ⟨hA, hB, hC, hD⟩
    · have hnocur : ∀ i ∈ s.live, i ∉ cancelCurrent s → False := by
        intro i hi hic
        cases hcu : s.current with
        | none =>
          rw [cancelCurrent, hcu] at hic
          have := hD i hi hic
          rw [hcu] at this
          cases this
        | some j =>
          rw [cancelCurrent, hcu] at hic
          simp only [List.mem_cons, not_or] at hic
          have := hD i hi hic.2
          rw [hcu] at this
          exact hic.1 (Option.some.inj this).symm
      cases sig with
      | ctxDone =>
        exact ⟨hA, hB, fun _ => rfl, fun i hi hic => absurd (hnocur i hi hic) not_false⟩
      | restart =>
        exact ⟨hA, hB, fun _ => rfl, fun i hi hic => absurd (hnocur i hi hic) not_false⟩
      | errSig =>
        exact ⟨hA, hB, fun _ => rfl, fun i hi hic => absurd (hnocur i hi hic) not_false⟩
  | taskExit i =>
    simp only [superStep]
    split_ifs with h1
    · exact ⟨fun j hj => hA j (List.mem_of_mem_erase hj), hB.erase i, hC,
        fun j hj hjc => hD j (List.mem_of_mem_erase hj) hjc⟩
    · exact ⟨hA, hB, hC, hD⟩

/-- The invariant holds after any schedule. -/
theorem superInv_run (acts : List SuperAction) : superInv (superRun acts) := by
  have H : ∀ (l : List SuperAction) (s : SuperState),
      superInv s → superInv (l.foldl superStep s) := by
    intro l
    induction l with
    | nil => exact fun s hs => hs
    | cons a rest ih => exact fun s hs => ih _ (superInv_step s a hs)
  exact H acts superInit superInv_init

/-- A duplicate-free list whose elements are all equal has at most one. -/
theorem length_le_one_of_nodup_const (l : List Nat) (c : Nat) (hnd : l.Nodup)
    (hall : ∀ x ∈ l, x = c) : l.length ≤ 1 := by
  cases l with
  | nil => simp
  | cons a t =>
    cases t with
    | nil => simp
    | cons b u =>
      exfalso
      have ha : a = c := hall a (by simp)
      have hb : b = c := hall b (by simp)
      have : a ∉ b :: u := (List.nodup_cons.mp hnd).1
      exact this (by simp [ha, hb])

/-- C8 amended: at every reachable instant, at most one live generation has
an uncancelled sub-context — the supervisor cancels the current generation's
sub-context before spawning the next — but a cancelled generation's pipeline
is not awaited, so a second, already-cancelled pipeline can still be live
(c8_counterexample); every live generation other than the current one has
been cancelled. -/
theorem c8_at_most_one_uncancelled (acts : List SuperAction) :
    ((superRun acts).live.filter
      (fun i => decide (i ∉ (superRun acts).cancelled))).length ≤ 1 ∧
    (∀ i ∈ (superRun acts).live, (superRun acts).current ≠ some i →
      i ∈ (superRun acts).cancelled) := by
  obtain ⟨hA, hB, hC, hD⟩ := superInv_run acts
  constructor
  · cases hcu : (superRun acts).current with
    | none =>
      have hempty : (superRun acts).live.filter
          (fun i => decide (i ∉ (superRun acts).cancelled)) = [] := by
        rw [List.eq_nil_iff_forall_not_mem]
        intro x hx
        obtain ⟨hx1, hx2⟩ := List.mem_filter.mp hx
        have := hD x hx1 (of_decide_eq_true hx2)
        rw [hcu] at this
        cases this
      rw [hempty]
      simp
    | some c =>
      refine length_le_one_of_nodup_const _ c (hB.filter _) ?_
      intro x hx
      obtain ⟨hx1, hx2⟩ := List.mem_filter.mp hx
      have := hD x hx1 (of_decide_eq_true hx2)
      rw [hcu] at this
      exact (Option.some.inj this).symm
  · intro i hi hne
    by_contra hic
    exact hne (hD i hi hic)

/-- Witness for c8_at_most_one_uncancelled: after "spawn, receive restart",
the sole live generation 0 is no longer current and is indeed cancelled. -/
theorem c8_at_most_one_uncancelled_witness :
    0 ∈ (superRun [SuperAction.spawn, SuperAction.recv SuperSignal.restart]).cancelled :=
  (c8_at_most_one_uncancelled [SuperAction.spawn, SuperAction.recv SuperSignal.restart]).2
    0 (by decide) (by decide)

end Tanukiup

namespace Tanukirpc

/-- C10: without `WithDisableTanukiupProxy`, `ListenAndServe` serves on the
TCP address when `TANUKIUP_UDS_PATH` is unset, serves on the Unix socket at
the variable's value when it is set and the bind succeeds, and returns the
bind error — with no TCP fallback — when the bind fails. -/
theorem c10_listen_and_serve (envUDS : Option String) (bindOk : Bool) (addr : String) :
    (envUDS = none →
      listenAndServeOutcome false envUDS bindOk addr = ServeOutcome.tcpListen addr) ∧
    (∀ p : String, envUDS = some p → bindOk = true →
      listenAndServeOutcome false envUDS bindOk addr = ServeOutcome.unixServe p) ∧
    (∀ p : String, envUDS = some p → bindOk = false →
      listenAndServeOutcome false envUDS bindOk addr = ServeOutcome.returnError) := by
  refine ⟨?_, ?_, ?_⟩
  · rintro rfl
    rfl
  · rintro p rfl rfl
    rfl
  · rintro p rfl rfl
    rfl

/-- Witness for c10_listen_and_serve at concrete environments. -/
theorem c10_listen_and_serve_witness :
    listenAndServeOutcome false none true ":8080" = ServeOutcome.tcpListen ":8080" ∧
    listenAndServeOutcome false (some "/tmp/s.sock") true ":8080" =
      ServeOutcome.unixServe "/tmp/s.sock" ∧
    listenAndServeOutcome false (some "/tmp/s.sock") false ":8080" =
      ServeOutcome.returnError :=
  ⟨(c10_listen_and_serve none true ":8080").1 rfl,
   (c10_listen_and_serve (some "/tmp/s.sock") true ":8080").2.1 "/tmp/s.sock" rfl rfl,
   (c10_listen_and_serve (some "/tmp/s.sock") false ":8080").2.2 "/tmp/s.sock" rfl rfl⟩

end Tanukirpc
